import Mathlib

/-!
# A static-file HTTP server (`main.cpp`): model and verified properties

The model follows `class HttpServer` and its nested `class Session`.

* A `std::string` is a Lean `String`, one `Char` per `char`.
* The Beast message types are modelled at the level of the calls the program
  makes on them: `version`, `keep_alive`, `result`, `set` and writing to the
  body through `beast::ostream`.
* The filesystem and the other outcomes the program cannot decide itself are
  collected in `Env`.
* An exception that leaves a completion handler uncaught is recorded in the
  session (`thrown`); the statements that follow the throwing call are skipped.
* Asynchronous operations are split into the initiating function (which
  returns at once) and its completion handler (the lambda).
-/

namespace HttpServer

/-! ## Data model -/

/-- Request methods, the enumerators of `boost::beast::http::verb`. A method
string Beast does not know is `unknown`. -/
inductive Verb
  | unknown | delete_ | get | head | post | put | connect | options | trace
  | copy | lock | mkcol | move | propfind | proppatch | search | unlock
  | bind | rebind | unbind | acl | report | mkactivity | checkout | merge
  | msearch | notify | subscribe | unsubscribe | patch | purge | mkcalendar
  | link | unlink
  deriving DecidableEq, Repr

/-- Header fields the program sets on the response with `response_.set`. -/
inductive Field
  | content_type | content_length
  deriving DecidableEq, Repr

/-- Model of `http::request<http::string_body>`: the parsed request.
`version` is 10 for HTTP/1.0 and 11 for HTTP/1.1; `connection` is the token
list of the Connection header field (empty when the field is absent). -/
structure Request where
  method : Verb
  target : String
  version : Nat
  connection : List String
  body : String
  deriving DecidableEq, Repr

/-- Model of `http::response<http::dynamic_body>`. `result` is the numeric
status code, `connection` the token list of the Connection field, `fields` the
other header fields in order, `body` the bytes of the dynamic buffer. -/
structure Response where
  version : Nat
  result : Nat
  connection : List String
  fields : List (Field × String)
  body : String
  deriving DecidableEq, Repr

/-- A default-constructed Beast response: HTTP/1.1, status 200, no fields,
empty body. -/
def Response.empty : Response :=
  { version := 11, result := 200, connection := [], fields := [], body := "" }

/-- A default-constructed Beast request (before anything is parsed into it). -/
def Request.empty : Request :=
  { method := Verb.unknown, target := "", version := 11, connection := [], body := "" }

/-- Beast `message::keep_alive()` getter: for HTTP/1.0 the connection persists
only when a `keep-alive` token is present, from HTTP/1.1 on it persists
unless a `close` token is present. -/
def connectionKeepAlive (version : Nat) (tokens : List String) : Bool :=
  if version < 11 then decide ("keep-alive" ∈ tokens) else !decide ("close" ∈ tokens)

/-- Whether the client asked for a persistent connection: `request_.keep_alive()`. -/
def Request.keep_alive (r : Request) : Bool :=
  connectionKeepAlive r.version r.connection

/-- Whether the response offers a persistent connection: `response_.keep_alive()`. -/
def Response.keep_alive (r : Response) : Bool :=
  connectionKeepAlive r.version r.connection

/-- Beast `response_.version(v)`. -/
def Response.setVersion (r : Response) (v : Nat) : Response :=
  { r with version := v }

/-- Beast `response_.keep_alive(value)` setter, which edits the Connection
token list according to the message version. -/
def Response.setKeepAlive (r : Response) (value : Bool) : Response :=
  let noKeep := r.connection.filter (fun t => t ≠ "keep-alive")
  let noBoth := noKeep.filter (fun t => t ≠ "close")
  let noClose := r.connection.filter (fun t => t ≠ "close")
  if r.version < 11 then
    if value then
      { r with connection :=
          if "keep-alive" ∈ noClose then noClose else noClose ++ ["keep-alive"] }
    else
      { r with connection := noBoth }
  else
    if value then
      { r with connection := noBoth }
    else
      { r with connection := if "close" ∈ noKeep then noKeep else noKeep ++ ["close"] }

/-- Beast `response_.result(status)`. -/
def Response.setResult (r : Response) (status : Nat) : Response :=
  { r with result := status }

/-- Beast `response_.set(name, value)`: every existing field of that name is
removed and the new one is inserted. -/
def Response.set (r : Response) (name : Field) (value : String) : Response :=
  { r with fields := r.fields.filter (fun f => f.1 ≠ name) ++ [(name, value)] }

/-- All values the response carries for a field name, in order. -/
def Response.values (r : Response) (name : Field) : List String :=
  (r.fields.filter (fun f => f.1 = name)).map Prod.snd

/-- The statement `beast::ostream(response_.body()) << text`. -/
def Response.ostream (r : Response) (text : String) : Response :=
  { r with body := r.body ++ text }

deriving instance DecidableEq for Except

/-- A filesystem access made while a request is processed. -/
inductive FsCall
  | fs_exists (path : String)
  | ifstream_open (path : String)
  deriving DecidableEq, Repr

/-- The path a filesystem access is about. -/
def FsCall.path : FsCall → String
  | FsCall.fs_exists p => p
  | FsCall.ifstream_open p => p

/-- Everything outside the program that decides what it does.

* `fs_exists path` is the outcome of the call `fs::exists(path)`:
  `Except.ok true` when the status query finds the path, `Except.ok false`
  when it reports that the path is missing (ENOENT, ENOTDIR), and
  `Except.error what` when the status query fails for any other reason (a
  name longer than the system allows, a directory that may not be searched, a
  loop of links), in which case Boost throws a `filesystem_error` whose
  `what()` is `what`.
* `ifstream_open path` is the outcome of constructing `std::ifstream` on the
  path: `none` when the stream is in a failed state, otherwise the bytes its
  reads deliver one after the other.
* `stack` is what the uninitialised `char buffer[4096]` holds.
* `append_fault = some (k, what)` makes call number `k` (counted from 0) of
  `body.append` inside the `try` block throw a `std::exception` whose
  `what()` is `what`, as an allocation failure does; `none` means nothing
  is thrown.
* `write_failed` says whether `http::async_write` reports an error. -/
structure Env where
  fs_exists : String → Except String Bool
  ifstream_open : String → Option (List Char)
  stack : List Char
  append_fault : Option (Nat × String)
  write_failed : Bool

/-- The states of a connection. -/
inductive ConnState
  | Reading | Processing | Writing | Closed
  deriving DecidableEq, Repr

/-- The completion handler a session is waiting for. -/
inductive Pending
  | nothing | read | write
  deriving DecidableEq, Repr

/-- Model of `class Session`. `doc_root` (the member `doc_root_`), `request_`
and `response_` are the members of the class that matter for the response; the
other fields record what the session did:
`fsCalls` the filesystem accesses, `states` the connection states entered,
`sent` the responses handed to `http::async_write`, `processed` the number of
calls of `processRequest`, `pending` the outstanding handler, and `thrown` the
`what()` of an exception that left a completion handler of the session
uncaught (it unwinds through `io_context.run()` to the `catch` of `main`,
which returns 1: the process ends). -/
structure Session where
  doc_root : String
  request_ : Request
  response_ : Response
  fsCalls : List FsCall
  states : List ConnState
  sent : List Response
  processed : Nat
  pending : Pending
  thrown : Option String
  deriving DecidableEq, Repr

/-- The constructor `Session(socket, doc_root)`. -/
def Session.mk_ (doc_root : String) : Session :=
  { doc_root := doc_root, request_ := Request.empty, response_ := Response.empty,
    fsCalls := [], states := [], sent := [], processed := 0, pending := Pending.nothing,
    thrown := none }

/-- Apply an update to the `response_` member. -/
def Session.resp (s : Session) (f : Response → Response) : Session :=
  { s with response_ := f s.response_ }

/-- Record a filesystem access. -/
def Session.call (s : Session) (c : FsCall) : Session :=
  { s with fsCalls := s.fsCalls ++ [c] }

/-- Record that the connection enters a state. -/
def Session.enter (s : Session) (st : ConnState) : Session :=
  { s with states := s.states ++ [st] }

/-! ## `Session::setContentType` -/

/-- The file name of a path: what follows the last `/`. -/
def filename (path : List Char) : List Char :=
  (path.reverse.takeWhile (fun c => c ≠ '/')).reverse

/-- Model of `fs::extension(path)` (Boost.Filesystem v3): empty when the file
name is `.` or `..` or has no dot, otherwise the file name from its last dot
on, the dot included. -/
def extension (path : String) : String :=
  let name := filename path.data
  if name = ['.'] ∨ name = ['.', '.'] then ""
  else if '.' ∈ name then
    String.mk ('.' :: (name.reverse.takeWhile (fun c => c ≠ '.')).reverse)
  else ""

/-- The chain of comparisons of `setContentType`, as a function of the
extension: the value given to the content-type field. -/
def contentTypeOf (extension : String) : String :=
  if extension = ".html" ∨ extension = ".htm" then "text/html"
  else if extension = ".css" then "text/css"
  else if extension = ".js" then "application/javascript"
  else if extension = ".json" then "application/json"
  else if extension = ".png" then "image/png"
  else if extension = ".jpg" ∨ extension = ".jpeg" then "image/jpeg"
  else if extension = ".gif" then "image/gif"
  else "application/octet-stream"

/-- `Session::setContentType(path)`. -/
def setContentType (path : String) (s : Session) : Session :=
  s.resp (fun r => r.set Field.content_type (contentTypeOf (extension path)))

/-! ## `Session::handleGet` -/

/-- The size of `char buffer[4096]`. -/
def bufferSize : Nat := 4096

/-- One call `body.append(buffer, count)` inside the `try` block, the call
number `k` of the request: it throws when the environment says so. -/
def bodyAppend (fault : Option (Nat × String)) (k : Nat) (body : String)
    (buffer : List Char) (count : Nat) : Except String String :=
  match fault with
  | some (j, what) =>
    if j = k then Except.error what else Except.ok (body ++ String.mk (buffer.take count))
  | none => Except.ok (body ++ String.mk (buffer.take count))

set_option linter.unusedVariables false in
/-- The read loop of `handleGet` with the append after it:
`while (file.read(buffer, sizeof(buffer))) body.append(buffer, file.gcount());`
`body.append(buffer, file.gcount());`.
`rest` is what the stream has not delivered yet. A `read` stores the bytes it
gets (`chunk`, so `file.gcount()` is `chunk.length`) at the front of `buffer`
and succeeds only when it got `sizeof(buffer)` of them. The result is the
final `body`, or the `what()` of the exception thrown. -/
def readLoop (fault : Option (Nat × String)) (rest buffer : List Char) (body : String)
    (k : Nat) : Except String String :=
  let chunk := rest.take bufferSize
  let buffer1 := chunk ++ buffer.drop chunk.length
  if h : chunk.length = bufferSize then
    match bodyAppend fault k body buffer1 chunk.length with
    | Except.error what => Except.error what
    | Except.ok body1 => readLoop fault (rest.drop bufferSize) buffer1 body1 (k + 1)
  else
    bodyAppend fault k body buffer1 chunk.length
termination_by rest.length
decreasing_by
  have hlen : bufferSize ≤ rest.length := by
    have := List.length_take_le bufferSize rest
    have h2 : (List.take bufferSize rest).length = bufferSize := h
    rw [List.length_take] at h2
    omega
  have hpos : 0 < bufferSize := by decide
  simp only [List.length_drop]
  omega

/-- The body of the `try` block of `handleGet`. The result is the session
when the block is left and, when it is left by an exception, its `what()`. -/
def tryBlock (env : Env) (path target : String) (s : Session) : Session × Option String :=
  let s1 := s.call (FsCall.ifstream_open path)
  match env.ifstream_open path with
  | none =>
    (((s1.resp (fun r => r.setResult 500)).resp
        (fun r => r.set Field.content_type "text/plain")).resp
        (fun r => r.ostream ("Error opening file: " ++ target ++ "\n")), none)
  | some bytes =>
    let s2 := s1.resp (fun r => r.setResult 200)
    let s3 := setContentType path s2
    match readLoop env.append_fault bytes env.stack "" 0 with
    | Except.error what => (s3, some what)
    | Except.ok body => (s3.resp (fun r => r.ostream body), none)

/-- The target `handleGet` works with: `/index.html` for the raw target `/`,
the raw target otherwise. -/
def normalizedTarget (target : String) : String :=
  if target = "/" then "/index.html" else target

/-- `Session::handleGet()`. The call `fs::exists(path)` stands before the
`try` block: when it throws, nothing in `handleGet` catches the exception and
the function is left with the response untouched. -/
def handleGet (env : Env) (s : Session) : Session :=
  let target := normalizedTarget s.request_.target
  let path := s.doc_root ++ target
  let s1 := s.call (FsCall.fs_exists path)
  match env.fs_exists path with
  | Except.error what => { s1 with thrown := some what }
  | Except.ok false =>
    ((s1.resp (fun r => r.setResult 404)).resp
        (fun r => r.set Field.content_type "text/plain")).resp
        (fun r => r.ostream ("File not found: " ++ target ++ "\n"))
  | Except.ok true =>
    match tryBlock env path target s1 with
    | (s2, none) => s2
    | (s2, some what) =>
      ((s2.resp (fun r => r.setResult 500)).resp
          (fun r => r.set Field.content_type "text/plain")).resp
          (fun r => r.ostream ("Exception: " ++ what ++ "\n"))

/-! ## `Session::writeResponse`, `processRequest`, `readRequest`, `start` -/

/-- `Session::writeResponse()`: sets content-length from the size of the body
and hands the response to `http::async_write`; it returns with the write
handler pending. -/
def writeResponse (s : Session) : Session :=
  let s1 := s.enter ConnState.Writing
  let s2 := s1.resp (fun r => r.set Field.content_length (toString r.body.length))
  { s2 with sent := s2.sent ++ [s2.response_], pending := Pending.write }

/-- The completion handler of `http::async_write`: whatever `ec` is, the send
side of the socket is shut down; the handler holds the last reference to the
session, so the session and its socket are destroyed when it returns. -/
def onWrite (s : Session) (_ec : Bool) : Session :=
  { s.enter ConnState.Closed with pending := Pending.nothing }

/-- `Session::processRequest()`. Nothing in it catches an exception that
leaves `handleGet`: the call of `writeResponse` is then not reached. -/
def processRequest (env : Env) (s : Session) : Session :=
  let s0 := { s.enter ConnState.Processing with processed := s.processed + 1 }
  let s1 := s0.resp (fun r => r.setVersion s0.request_.version)
  let s2 := s1.resp (fun r => r.setKeepAlive false)
  let s3 :=
    match s2.request_.method with
    | Verb.get => handleGet env s2
    | _ =>
      ((s2.resp (fun r => r.setResult 400)).resp
          (fun r => r.set Field.content_type "text/plain")).resp
          (fun r => r.ostream "Invalid request method.\n")
  match s3.thrown with
  | some _ => s3
  | none => writeResponse s3

/-- `Session::readRequest()`: starts `http::async_read` and returns with the
read handler pending. -/
def readRequest (s : Session) : Session :=
  { s.enter ConnState.Reading with pending := Pending.read }

/-- The completion handler of `http::async_read`. `outcome` is `none` when
`ec` is set (transport error, malformed or incomplete request, buffer limit
exceeded) and the parsed request otherwise. With an error the handler does
nothing and drops the last reference to the session, which closes it. The
handler catches nothing either: an exception that leaves `processRequest`
leaves the handler. -/
def onRead (env : Env) (s : Session) (outcome : Option Request) : Session :=
  match outcome with
  | none => { s.enter ConnState.Closed with pending := Pending.nothing }
  | some req => processRequest env { s with request_ := req, pending := Pending.nothing }

/-- `Session::start()`. -/
def Session.start (s : Session) : Session :=
  readRequest s

/-- A whole connection: the session is started and its handlers run as their
operations complete. When the read handler was left by an exception no write
is pending and nothing more happens in the session. -/
def Session.run (env : Env) (s : Session) (outcome : Option Request) : Session :=
  let s1 := onRead env s.start outcome
  if s1.pending = Pending.write then onWrite s1 env.write_failed else s1

/-- A fresh session that is started and whose read completes with the parsed
request `req`: the session as `processRequest` leaves it, with the write
handler pending. -/
def serve (doc_root : String) (env : Env) (req : Request) : Session :=
  onRead env (Session.mk_ doc_root).start (some req)

/-! ## `HttpServer::acceptConnection` -/

/-- What the listener does, in order. -/
inductive ListenerEvent
  | accept_armed
  | session_started (s : Session)
  deriving DecidableEq, Repr

/-- Model of `class HttpServer`: the document root (the member `doc_root_`) and
the record of what the listener did. -/
structure Server where
  doc_root : String
  events : List ListenerEvent
  deriving DecidableEq, Repr

/-- The completion handler of `async_accept`, up to its final call of
`acceptConnection`: on success a session is made and started. `failed` says
whether `ec` is set. -/
def onAccept (srv : Server) (failed : Bool) : Server :=
  if failed = false then
    { srv with events :=
        srv.events ++ [ListenerEvent.session_started (Session.mk_ srv.doc_root).start] }
  else srv

/-- `HttpServer::acceptConnection()` followed over a sequence of accept
outcomes: the accept is armed, and when it completes the handler runs and
calls `acceptConnection` again. After the last outcome given the accept is
armed and waiting. -/
def acceptConnection (srv : Server) : List Bool → Server
  | [] => { srv with events := srv.events ++ [ListenerEvent.accept_armed] }
  | failed :: outcomes =>
    acceptConnection
      (onAccept { srv with events := srv.events ++ [ListenerEvent.accept_armed] } failed)
      outcomes

/-- The constructor `HttpServer(io_context, port, doc_root)`. -/
def Server.mk_ (doc_root : String) (outcomes : List Bool) : Server :=
  acceptConnection { doc_root := doc_root, events := [] } outcomes

/-- The table of the specification: extension and content type. -/
def extensionTable : List (String × String) :=
  [(".html", "text/html"), (".htm", "text/html"), (".css", "text/css"),
   (".js", "application/javascript"), (".json", "application/json"),
   (".png", "image/png"), (".jpg", "image/jpeg"), (".jpeg", "image/jpeg"),
   (".gif", "image/gif")]

/-- What the listener does for one accept outcome: it arms the accept and, when
the accept succeeded, starts a session for the document root. -/
def acceptRound (doc_root : String) (failed : Bool) : List ListenerEvent :=
  ListenerEvent.accept_armed ::
    (if failed = false then [ListenerEvent.session_started (Session.mk_ doc_root).start]
     else [])

/-- The longest file name the system allows (`NAME_MAX` on Linux). -/
def nameMax : Nat := 255

/-- Sample environment: `www/index.html` holds `hi`, `www/logo.png` holds four
bytes, `www/locked` exists but cannot be opened, nothing else exists. The
status query fails with ENAMETOOLONG on a path whose file name is longer than
`nameMax` (no such file can exist), and reports every other path as present
or missing. The text of the error stands for the `what()` of the
`filesystem_error`. -/
def sampleEnv : Env :=
  { fs_exists := fun p =>
      if nameMax < (filename p.data).length then
        Except.error "boost::filesystem::status: File name too long"
      else Except.ok (p = "www/index.html" || p = "www/logo.png" || p = "www/locked"),
    ifstream_open := fun p =>
      if p = "www/index.html" then some ['h', 'i']
      else if p = "www/logo.png" then some ['P', 'N', 'G', '!']
      else none,
    stack := ['?', '?', '?'],
    append_fault := none,
    write_failed := false }

/-- Sample request: the given method and target over HTTP/1.1, the client
asking for a persistent connection. -/
def sampleRequest (method : Verb) (target : String) : Request :=
  { method := method, target := target, version := 11, connection := ["keep-alive"],
    body := "" }

/-- The session `processRequest` hands to its `switch` when a fresh session
read the request `req`: request stored, version copied, `keep_alive(false)`
applied, nothing else touched. -/
def dispatched (doc_root : String) (req : Request) : Session :=
  { doc_root := doc_root, request_ := req,
    response_ := (Response.empty.setVersion req.version).setKeepAlive false,
    fsCalls := [], states := [ConnState.Reading, ConnState.Processing], sent := [],
    processed := 1, pending := Pending.nothing, thrown := none }

/-- The end of `processRequest`, after the `switch`: `writeResponse` is called
unless an exception is on its way out. -/
def finish (s : Session) : Session :=
  match s.thrown with
  | some _ => s
  | none => writeResponse s

/-- A request target of one `/` followed by 300 times `a`: a well-formed
target (about 300 bytes, far below the 8192-byte read buffer) whose file name
is longer than `nameMax`. -/
def longTarget : String := String.mk ('/' :: List.replicate 300 'a')

/-- The `default:` branch of the `switch` in `processRequest`. -/
def badMethod (s : Session) : Session :=
  ((s.resp (fun r => r.setResult 400)).resp
      (fun r => r.set Field.content_type "text/plain")).resp
      (fun r => r.ostream "Invalid request method.\n")

/-- The place of a state in the pipeline. -/
def ConnState.rank : ConnState → Nat
  | ConnState.Reading => 0
  | ConnState.Processing => 1
  | ConnState.Writing => 2
  | ConnState.Closed => 3

/-! ## Basic facts about the response operations -/

@[simp] theorem resp_response (s : Session) (f : Response → Response) :
    (s.resp f).response_ = f s.response_ := rfl

@[simp] theorem resp_fsCalls (s : Session) (f : Response → Response) :
    (s.resp f).fsCalls = s.fsCalls := rfl

@[simp] theorem resp_request (s : Session) (f : Response → Response) :
    (s.resp f).request_ = s.request_ := rfl

@[simp] theorem resp_doc_root (s : Session) (f : Response → Response) :
    (s.resp f).doc_root = s.doc_root := rfl

@[simp] theorem resp_sent (s : Session) (f : Response → Response) :
    (s.resp f).sent = s.sent := rfl

@[simp] theorem resp_states (s : Session) (f : Response → Response) :
    (s.resp f).states = s.states := rfl

@[simp] theorem resp_processed (s : Session) (f : Response → Response) :
    (s.resp f).processed = s.processed := rfl

@[simp] theorem resp_pending (s : Session) (f : Response → Response) :
    (s.resp f).pending = s.pending := rfl

@[simp] theorem resp_thrown (s : Session) (f : Response → Response) :
    (s.resp f).thrown = s.thrown := rfl

@[simp] theorem call_thrown (s : Session) (c : FsCall) : (s.call c).thrown = s.thrown := rfl

@[simp] theorem call_processed (s : Session) (c : FsCall) :
    (s.call c).processed = s.processed := rfl

@[simp] theorem call_pending (s : Session) (c : FsCall) : (s.call c).pending = s.pending := rfl

@[simp] theorem call_sent (s : Session) (c : FsCall) : (s.call c).sent = s.sent := rfl

@[simp] theorem call_states (s : Session) (c : FsCall) : (s.call c).states = s.states := rfl

@[simp] theorem call_response (s : Session) (c : FsCall) :
    (s.call c).response_ = s.response_ := rfl

@[simp] theorem call_fsCalls (s : Session) (c : FsCall) :
    (s.call c).fsCalls = s.fsCalls ++ [c] := rfl

@[simp] theorem set_body (r : Response) (n : Field) (v : String) :
    (r.set n v).body = r.body := rfl

@[simp] theorem set_result (r : Response) (n : Field) (v : String) :
    (r.set n v).result = r.result := rfl

@[simp] theorem set_version (r : Response) (n : Field) (v : String) :
    (r.set n v).version = r.version := rfl

@[simp] theorem set_connection (r : Response) (n : Field) (v : String) :
    (r.set n v).connection = r.connection := rfl

@[simp] theorem setResult_body (r : Response) (n : Nat) : (r.setResult n).body = r.body := rfl

@[simp] theorem setResult_result (r : Response) (n : Nat) : (r.setResult n).result = n := rfl

@[simp] theorem setResult_version (r : Response) (n : Nat) :
    (r.setResult n).version = r.version := rfl

@[simp] theorem setResult_connection (r : Response) (n : Nat) :
    (r.setResult n).connection = r.connection := rfl

@[simp] theorem setResult_values (r : Response) (n : Nat) (name : Field) :
    (r.setResult n).values name = r.values name := rfl

@[simp] theorem ostream_body (r : Response) (t : String) : (r.ostream t).body = r.body ++ t := rfl

@[simp] theorem ostream_result (r : Response) (t : String) : (r.ostream t).result = r.result := rfl

@[simp] theorem ostream_version (r : Response) (t : String) :
    (r.ostream t).version = r.version := rfl

@[simp] theorem ostream_connection (r : Response) (t : String) :
    (r.ostream t).connection = r.connection := rfl

@[simp] theorem ostream_values (r : Response) (t : String) (name : Field) :
    (r.ostream t).values name = r.values name := rfl

/-- After `set name v` the response carries exactly the value `v` for `name`. -/
@[simp] theorem values_set_same (r : Response) (name : Field) (v : String) :
    (r.set name v).values name = [v] := by
  simp [Response.set, Response.values, List.filter_append, List.filter_filter]

/-- A `set` on one field leaves the values of every other field alone. -/
@[simp] theorem values_set_other (r : Response) (name other : Field) (v : String)
    (h : other ≠ name) : (r.set name v).values other = r.values other := by
  have h1 : ∀ f : Field × String, (decide (f.1 = other) && !decide (f.1 = name))
      = decide (f.1 = other) := by
    intro f
    by_cases hf : f.1 = other
    · simp [hf, h]
    · simp [hf]
  have h2 : ¬ (name = other) := fun e => h e.symm
  simp [Response.set, Response.values, List.filter_append, List.filter_filter, h1, h2]

/-- The getter after `keep_alive(false)`: no persistence is offered, whatever
the version and whatever the Connection field held. -/
theorem keep_alive_setKeepAlive_false (r : Response) :
    (r.setKeepAlive false).keep_alive = false := by
  unfold Response.setKeepAlive Response.keep_alive connectionKeepAlive
  by_cases hv : r.version < 11
  · simp [hv, List.mem_filter]
  · by_cases hc : "close" ∈ r.connection
    · simp [hv, hc, List.mem_filter]
    · simp [hv, hc, List.mem_filter]

/-! ## The read loop -/

/-- One `body.append` either throws or adds the first `count` bytes of the
buffer to `body`. -/
theorem bodyAppend_cases (fault : Option (Nat × String)) (k : Nat) (body : String)
    (buffer : List Char) (count : Nat) :
    bodyAppend fault k body buffer count
        = Except.ok (body ++ String.mk (buffer.take count)) ∨
      ∃ what, bodyAppend fault k body buffer count = Except.error what := by
  unfold bodyAppend
  split
  · next j what =>
    by_cases hj : j = k
    · exact Or.inr ⟨what, by simp [hj]⟩
    · exact Or.inl (by simp [hj])
  · exact Or.inl rfl

/-- The read loop, by induction on a bound of the stream length: it either
throws or ends with `body` extended by all the bytes of the stream. -/
theorem readLoop_cases_aux (fault : Option (Nat × String)) (n : Nat) :
    ∀ (rest buffer : List Char) (body : String) (k : Nat), rest.length ≤ n →
      readLoop fault rest buffer body k = Except.ok (body ++ String.mk rest) ∨
        ∃ what, readLoop fault rest buffer body k = Except.error what := by
  induction n with
  | zero =>
    intro rest buffer body k hn
    have hnil : rest = [] := List.length_eq_zero.mp (by omega)
    subst hnil
    unfold readLoop
    have hne : ¬ (0 = bufferSize) := by decide
    rcases bodyAppend_cases fault k body ([] ++ List.drop 0 buffer) 0 with h | ⟨what, h⟩
    · left
      simpa [hne] using h
    · right
      exact ⟨what, by simpa [hne] using h⟩
  | succ n ih =>
    intro rest buffer body k hn
    unfold readLoop
    by_cases h : (List.take bufferSize rest).length = bufferSize
    · have hlen : bufferSize ≤ rest.length := by
        rw [List.length_take] at h
        omega
      have hpos : 0 < bufferSize := by decide
      have hdrop : (rest.drop bufferSize).length ≤ n := by
        rw [List.length_drop]
        omega
      have htake : List.take bufferSize (List.take bufferSize rest ++
          List.drop bufferSize buffer) = List.take bufferSize rest := by
        rw [List.take_append_of_le_length (by omega)]
        exact List.take_of_length_le (by omega)
      rw [dif_pos h, h]
      rcases bodyAppend_cases fault k body
          (List.take bufferSize rest ++ List.drop bufferSize buffer) bufferSize
        with ha | ⟨what, ha⟩
      · rw [ha, htake]
        simp only []
        rcases ih (rest.drop bufferSize)
            (List.take bufferSize rest ++ List.drop bufferSize buffer)
            (body ++ String.mk (List.take bufferSize rest)) (k + 1) hdrop
          with hl | ⟨what, hl⟩
        · left
          rw [hl]
          congr 1
          apply String.ext
          simp [String.data_append]
        · exact Or.inr ⟨what, hl⟩
      · right
        exact ⟨what, by rw [ha]⟩
    · have hshort : rest.length < bufferSize := by
        rw [List.length_take] at h
        omega
      have htake : List.take bufferSize rest = rest := List.take_of_length_le (by omega)
      rw [dif_neg h]
      rcases bodyAppend_cases fault k body
          (List.take bufferSize rest ++ List.drop (List.take bufferSize rest).length buffer)
          (List.take bufferSize rest).length with ha | ⟨what, ha⟩
      · left
        rw [ha]
        simp [htake]
      · exact Or.inr ⟨what, ha⟩

/-- The read loop and the append after it either throw or add exactly the
bytes of the stream to `body`, in order, for every stream length and whatever
the buffer held. -/
theorem readLoop_cases (fault : Option (Nat × String)) (rest buffer : List Char)
    (body : String) (k : Nat) :
    readLoop fault rest buffer body k = Except.ok (body ++ String.mk rest) ∨
      ∃ what, readLoop fault rest buffer body k = Except.error what :=
  readLoop_cases_aux fault rest.length rest buffer body k (Nat.le_refl _)

/-- An append never throws when no fault is set. -/
theorem bodyAppend_no_fault (k : Nat) (body : String) (buffer : List Char) (count : Nat)
    (what : String) : bodyAppend none k body buffer count ≠ Except.error what := by
  simp [bodyAppend]

/-- With no fault set the read loop does not throw, by induction on a bound
of the stream length. -/
theorem readLoop_no_fault_aux (n : Nat) :
    ∀ (rest buffer : List Char) (body : String) (k : Nat) (what : String),
      rest.length ≤ n → readLoop none rest buffer body k ≠ Except.error what := by
  induction n with
  | zero =>
    intro rest buffer body k what hn
    have hnil : rest = [] := List.length_eq_zero.mp (by omega)
    subst hnil
    unfold readLoop
    have hne : ¬ (0 = bufferSize) := by decide
    simp [hne, bodyAppend]
  | succ n ih =>
    intro rest buffer body k what hn
    unfold readLoop
    by_cases h : (List.take bufferSize rest).length = bufferSize
    · have hlen : bufferSize ≤ rest.length := by
        rw [List.length_take] at h
        omega
      have hpos : 0 < bufferSize := by decide
      have hdrop : (rest.drop bufferSize).length ≤ n := by
        rw [List.length_drop]
        omega
      rw [dif_pos h]
      simp only [bodyAppend]
      exact ih _ _ _ _ what hdrop
    · rw [dif_neg h]
      simp [bodyAppend]

/-- With no fault set the read loop ends with `body` extended by all the
bytes of the stream. -/
theorem readLoop_no_fault (rest buffer : List Char) (body : String) (k : Nat) :
    readLoop none rest buffer body k = Except.ok (body ++ String.mk rest) := by
  rcases readLoop_cases none rest buffer body k with h | ⟨what, h⟩
  · exact h
  · exact absurd h (readLoop_no_fault_aux rest.length rest buffer body k what (Nat.le_refl _))

/-- When the first `body.append` is set to throw, the read loop throws, for
every stream: the first append is made whether or not the first read is
full. -/
theorem readLoop_first_fault (what : String) (rest buffer : List Char) (body : String) :
    readLoop (some (0, what)) rest buffer body 0 = Except.error what := by
  unfold readLoop
  by_cases h : (List.take bufferSize rest).length = bufferSize
  · rw [dif_pos h]
    simp [bodyAppend]
  · rw [dif_neg h]
    simp [bodyAppend]

/-! ## Processing a request -/

@[simp] theorem writeResponse_response (s : Session) :
    (writeResponse s).response_
      = s.response_.set Field.content_length (toString s.response_.body.length) := rfl

@[simp] theorem writeResponse_fsCalls (s : Session) :
    (writeResponse s).fsCalls = s.fsCalls := rfl

@[simp] theorem writeResponse_sent (s : Session) :
    (writeResponse s).sent
      = s.sent ++ [s.response_.set Field.content_length (toString s.response_.body.length)] :=
  rfl

@[simp] theorem writeResponse_states (s : Session) :
    (writeResponse s).states = s.states ++ [ConnState.Writing] := rfl

@[simp] theorem writeResponse_thrown (s : Session) :
    (writeResponse s).thrown = s.thrown := rfl

/-- When no exception is on its way out, `processRequest` ends with
`writeResponse`. -/
theorem finish_of_not_thrown (s : Session) (h : s.thrown = none) :
    finish s = writeResponse s := by
  simp only [finish, h]

/-- When an exception is on its way out, `writeResponse` is not called. -/
theorem finish_of_thrown (s : Session) (what : String) (h : s.thrown = some what) :
    finish s = s := by
  simp only [finish, h]

/-- A served GET request is `handleGet` followed by the end of
`processRequest`. -/
theorem serve_get (doc_root : String) (env : Env) (req : Request)
    (h : req.method = Verb.get) :
    serve doc_root env req = finish (handleGet env (dispatched doc_root req)) := by
  simp only [serve, onRead, processRequest, Session.start, readRequest, Session.mk_,
    Session.enter, Session.resp, h, dispatched, List.nil_append, List.cons_append, finish]

/-- A served request of any other method is the `default:` branch followed by
`writeResponse`. -/
theorem serve_other (doc_root : String) (env : Env) (req : Request)
    (h : req.method ≠ Verb.get) :
    serve doc_root env req = writeResponse (badMethod (dispatched doc_root req)) := by
  simp only [serve, onRead, processRequest, Session.start, readRequest, Session.mk_,
    Session.enter, Session.resp, dispatched, List.nil_append, List.cons_append, badMethod]

/-- Claim C1: a request whose method is not GET gets status 400, the single
content type `text/plain` and the body `Invalid request method.` followed by a
newline, whatever its target; no filesystem access is made, and the session,
its response included, is the same under every environment. -/
theorem processRequest_non_get (doc_root : String) (env : Env) (req : Request)
    (h : req.method ≠ Verb.get) :
    (serve doc_root env req).response_.result = 400 ∧
    (serve doc_root env req).response_.values Field.content_type = ["text/plain"] ∧
    (serve doc_root env req).response_.body = "Invalid request method.\n" ∧
    (serve doc_root env req).fsCalls = [] ∧
    (serve doc_root env req).sent = [(serve doc_root env req).response_] ∧
    ∀ env2 : Env, serve doc_root env2 req = serve doc_root env req := by
  refine ⟨?_, ?_, ?_, ?_, ?_, ?_⟩
  · rw [serve_other doc_root env req h]; simp [badMethod]
  · rw [serve_other doc_root env req h]; simp [badMethod]
  · rw [serve_other doc_root env req h]
    simp [badMethod, dispatched, Response.setKeepAlive, Response.setVersion, Response.empty]
    split <;> rfl
  · rw [serve_other doc_root env req h]; simp [badMethod, dispatched]
  · rw [serve_other doc_root env req h]; simp [badMethod, dispatched]
  · intro env2
    rw [serve_other doc_root env req h, serve_other doc_root env2 req h]

/-- Witness for C1: a POST on `/` in the sample environment. -/
theorem processRequest_non_get_witness :
    (serve "www" sampleEnv (sampleRequest Verb.post "/")).response_.result = 400 ∧
    (serve "www" sampleEnv (sampleRequest Verb.post "/")).response_.values
      Field.content_type = ["text/plain"] ∧
    (serve "www" sampleEnv (sampleRequest Verb.post "/")).response_.body
      = "Invalid request method.\n" ∧
    (serve "www" sampleEnv (sampleRequest Verb.post "/")).fsCalls = [] :=
  have h := processRequest_non_get "www" sampleEnv (sampleRequest Verb.post "/") (by decide)
  ⟨h.1, h.2.1, h.2.2.1, h.2.2.2.1⟩

/-! ## The branches of `handleGet` -/

/-- The branch left by an exception: the status query fails, `fs::exists`
throws, and `handleGet` is left with the response as it was. -/
theorem handleGet_throws (env : Env) (s : Session) (what : String)
    (h : env.fs_exists (s.doc_root ++ normalizedTarget s.request_.target) = Except.error what) :
    handleGet env s =
      { s.call (FsCall.fs_exists (s.doc_root ++ normalizedTarget s.request_.target)) with thrown := some what } := by
  simp only [handleGet, h]

/-- The 404 branch: the path is reported missing. -/
theorem handleGet_not_found (env : Env) (s : Session)
    (h : env.fs_exists (s.doc_root ++ normalizedTarget s.request_.target) = Except.ok false) :
    handleGet env s =
      (((s.call (FsCall.fs_exists (s.doc_root ++ normalizedTarget s.request_.target))).resp
        (fun r => r.setResult 404)).resp
        (fun r => r.set Field.content_type "text/plain")).resp
        (fun r => r.ostream
          ("File not found: " ++ normalizedTarget s.request_.target ++ "\n")) := by
  simp only [handleGet, h]

/-- The 500 branch taken when the path exists and the stream does not open. -/
theorem handleGet_open_failed (env : Env) (s : Session)
    (h : env.fs_exists (s.doc_root ++ normalizedTarget s.request_.target) = Except.ok true)
    (ho : env.ifstream_open (s.doc_root ++ normalizedTarget s.request_.target) = none) :
    handleGet env s =
      ((((s.call (FsCall.fs_exists (s.doc_root ++ normalizedTarget s.request_.target))).call
        (FsCall.ifstream_open (s.doc_root ++ normalizedTarget s.request_.target))).resp
        (fun r => r.setResult 500)).resp
        (fun r => r.set Field.content_type "text/plain")).resp
        (fun r => r.ostream
          ("Error opening file: " ++ normalizedTarget s.request_.target ++ "\n")) := by
  simp [handleGet, tryBlock, h, ho]

/-- The 200 branch: the stream opens and the read loop ends with `body`. -/
theorem handleGet_ok (env : Env) (s : Session) (bytes : List Char) (body : String)
    (h : env.fs_exists (s.doc_root ++ normalizedTarget s.request_.target) = Except.ok true)
    (ho : env.ifstream_open (s.doc_root ++ normalizedTarget s.request_.target) = some bytes)
    (hr : readLoop env.append_fault bytes env.stack "" 0 = Except.ok body) :
    handleGet env s =
      (setContentType (s.doc_root ++ normalizedTarget s.request_.target)
        (((s.call (FsCall.fs_exists (s.doc_root ++ normalizedTarget s.request_.target))).call
          (FsCall.ifstream_open (s.doc_root ++ normalizedTarget s.request_.target))).resp
          (fun r => r.setResult 200))).resp
        (fun r => r.ostream body) := by
  simp [handleGet, tryBlock, h, ho, hr]

/-- The 500 branch of the `catch`: the read loop throws. -/
theorem handleGet_exception (env : Env) (s : Session) (bytes : List Char) (what : String)
    (h : env.fs_exists (s.doc_root ++ normalizedTarget s.request_.target) = Except.ok true)
    (ho : env.ifstream_open (s.doc_root ++ normalizedTarget s.request_.target) = some bytes)
    (hr : readLoop env.append_fault bytes env.stack "" 0 = Except.error what) :
    handleGet env s =
      (((setContentType (s.doc_root ++ normalizedTarget s.request_.target)
        (((s.call (FsCall.fs_exists (s.doc_root ++ normalizedTarget s.request_.target))).call
          (FsCall.ifstream_open (s.doc_root ++ normalizedTarget s.request_.target))).resp
          (fun r => r.setResult 200))).resp
        (fun r => r.setResult 500)).resp
        (fun r => r.set Field.content_type "text/plain")).resp
        (fun r => r.ostream ("Exception: " ++ what ++ "\n")) := by
  simp [handleGet, tryBlock, h, ho, hr]

/-- The five branches of `handleGet` cover every case. -/
theorem handleGet_cases (env : Env) (s : Session) :
    (∃ what, env.fs_exists (s.doc_root ++ normalizedTarget s.request_.target) = Except.error what) ∨
    env.fs_exists (s.doc_root ++ normalizedTarget s.request_.target) = Except.ok false ∨
    (env.fs_exists (s.doc_root ++ normalizedTarget s.request_.target) = Except.ok true ∧
      env.ifstream_open (s.doc_root ++ normalizedTarget s.request_.target) = none) ∨
    (env.fs_exists (s.doc_root ++ normalizedTarget s.request_.target) = Except.ok true ∧
      ∃ bytes body,
        env.ifstream_open (s.doc_root ++ normalizedTarget s.request_.target) = some bytes ∧
        readLoop env.append_fault bytes env.stack "" 0 = Except.ok body) ∨
    (env.fs_exists (s.doc_root ++ normalizedTarget s.request_.target) = Except.ok true ∧
      ∃ bytes what,
        env.ifstream_open (s.doc_root ++ normalizedTarget s.request_.target) = some bytes ∧
        readLoop env.append_fault bytes env.stack "" 0 = Except.error what) := by
  cases h : env.fs_exists (s.doc_root ++ normalizedTarget s.request_.target) with
  | error what => exact Or.inl ⟨what, rfl⟩
  | ok found =>
    right
    cases found with
    | false => exact Or.inl rfl
    | true =>
      right
      cases ho : env.ifstream_open (s.doc_root ++ normalizedTarget s.request_.target) with
      | none => exact Or.inl ⟨rfl, rfl⟩
      | some bytes =>
        right
        cases hr : readLoop env.append_fault bytes env.stack "" 0 with
        | ok body => exact Or.inl ⟨rfl, bytes, body, rfl, hr⟩
        | error what => exact Or.inr ⟨rfl, bytes, what, rfl, hr⟩

/-- No branch of `handleGet` touches the version or the Connection field of
the response. -/
theorem handleGet_version_connection (env : Env) (s : Session) :
    (handleGet env s).response_.version = s.response_.version ∧
    (handleGet env s).response_.connection = s.response_.connection := by
  rcases handleGet_cases env s with ⟨what, h⟩ | h | ⟨h, ho⟩ | ⟨h, bytes, body, ho, hr⟩ |
    ⟨h, bytes, what, ho, hr⟩
  · rw [handleGet_throws env s what h]; exact ⟨rfl, rfl⟩
  · rw [handleGet_not_found env s h]; simp
  · rw [handleGet_open_failed env s h ho]; simp
  · rw [handleGet_ok env s bytes body h ho hr]; simp [setContentType]
  · rw [handleGet_exception env s bytes what h ho hr]; simp [setContentType]

/-- No branch of `handleGet` sends anything. -/
theorem handleGet_sent (env : Env) (s : Session) : (handleGet env s).sent = s.sent := by
  rcases handleGet_cases env s with ⟨what, h⟩ | h | ⟨h, ho⟩ | ⟨h, bytes, body, ho, hr⟩ |
    ⟨h, bytes, what, ho, hr⟩
  · rw [handleGet_throws env s what h]; rfl
  · rw [handleGet_not_found env s h]; simp
  · rw [handleGet_open_failed env s h ho]; simp
  · rw [handleGet_ok env s bytes body h ho hr]; simp [setContentType]
  · rw [handleGet_exception env s bytes what h ho hr]; simp [setContentType]

/-- No branch of `handleGet` enters a state, calls `processRequest` or arms a
handler. -/
theorem handleGet_frame (env : Env) (s : Session) :
    (handleGet env s).states = s.states ∧ (handleGet env s).processed = s.processed ∧
    (handleGet env s).pending = s.pending := by
  rcases handleGet_cases env s with ⟨what, h⟩ | h | ⟨h, ho⟩ | ⟨h, bytes, body, ho, hr⟩ |
    ⟨h, bytes, what, ho, hr⟩
  · rw [handleGet_throws env s what h]; exact ⟨rfl, rfl, rfl⟩
  · rw [handleGet_not_found env s h]; simp
  · rw [handleGet_open_failed env s h ho]; simp
  · rw [handleGet_ok env s bytes body h ho hr]; simp [setContentType]
  · rw [handleGet_exception env s bytes what h ho hr]; simp [setContentType]

/-- When `fs::exists` returns an answer, no exception leaves `handleGet`: the
only other call that may throw stands inside the `try` block. -/
theorem handleGet_thrown_of_answer (env : Env) (s : Session) (found : Bool)
    (h : env.fs_exists (s.doc_root ++ normalizedTarget s.request_.target) = Except.ok found) :
    (handleGet env s).thrown = s.thrown := by
  rcases handleGet_cases env s with ⟨what, h2⟩ | h2 | ⟨h2, ho⟩ | ⟨h2, bytes, body, ho, hr⟩ |
    ⟨h2, bytes, what, ho, hr⟩
  · rw [h] at h2; cases h2
  · rw [handleGet_not_found env s h2]; simp
  · rw [handleGet_open_failed env s h2 ho]; simp
  · rw [handleGet_ok env s bytes body h2 ho hr]; simp [setContentType]
  · rw [handleGet_exception env s bytes what h2 ho hr]; simp [setContentType]

@[simp] theorem dispatched_body (doc_root : String) (req : Request) :
    (dispatched doc_root req).response_.body = "" := by
  simp only [dispatched, Response.setKeepAlive, Response.setVersion, Response.empty]
  split <;> rfl

@[simp] theorem dispatched_request (doc_root : String) (req : Request) :
    (dispatched doc_root req).request_ = req := rfl

@[simp] theorem dispatched_doc_root (doc_root : String) (req : Request) :
    (dispatched doc_root req).doc_root = doc_root := rfl

@[simp] theorem dispatched_fsCalls (doc_root : String) (req : Request) :
    (dispatched doc_root req).fsCalls = [] := rfl

@[simp] theorem dispatched_sent (doc_root : String) (req : Request) :
    (dispatched doc_root req).sent = [] := rfl

@[simp] theorem dispatched_thrown (doc_root : String) (req : Request) :
    (dispatched doc_root req).thrown = none := rfl

@[simp] theorem empty_append_string (t : String) : "" ++ t = t := by
  apply String.ext
  simp [String.data_append]

/-- A served GET request for which `fs::exists` returns an answer is
`handleGet` followed by `writeResponse`. -/
theorem serve_get_answer (doc_root : String) (env : Env) (req : Request) (found : Bool)
    (hm : req.method = Verb.get)
    (h : env.fs_exists (doc_root ++ normalizedTarget req.target) = Except.ok found) :
    serve doc_root env req = writeResponse (handleGet env (dispatched doc_root req)) := by
  rw [serve_get doc_root env req hm]
  apply finish_of_not_thrown
  rw [handleGet_thrown_of_answer env (dispatched doc_root req) found (by simpa using h)]
  rfl

/-- A served GET request for which `fs::exists` throws: `handleGet` and
`processRequest` are left by the exception, the response is as it was before
the `switch`, and `writeResponse` is not called. -/
theorem serve_get_throws (doc_root : String) (env : Env) (req : Request) (what : String)
    (hm : req.method = Verb.get)
    (h : env.fs_exists (doc_root ++ normalizedTarget req.target) = Except.error what) :
    serve doc_root env req =
      { (dispatched doc_root req).call
          (FsCall.fs_exists (doc_root ++ normalizedTarget req.target)) with
        thrown := some what } := by
  have hg := handleGet_throws env (dispatched doc_root req) what (by simpa using h)
  rw [serve_get doc_root env req hm, hg]
  rfl

/-- Either exactly one response is handed to the write, the one left in
`response_`, or an exception left `processRequest` and none is. -/
theorem serve_sent (doc_root : String) (env : Env) (req : Request) :
    ((serve doc_root env req).thrown = none ∧
      (serve doc_root env req).sent = [(serve doc_root env req).response_]) ∨
    ((serve doc_root env req).thrown ≠ none ∧ (serve doc_root env req).sent = []) := by
  by_cases hm : req.method = Verb.get
  · cases h : env.fs_exists (doc_root ++ normalizedTarget req.target) with
    | error what =>
      right
      rw [serve_get_throws doc_root env req what hm h]
      exact ⟨by simp, rfl⟩
    | ok found =>
      left
      rw [serve_get_answer doc_root env req found hm h]
      have ht := handleGet_thrown_of_answer env (dispatched doc_root req) found
        (by simpa using h)
      refine ⟨?_, ?_⟩
      · rw [writeResponse_thrown, ht]; rfl
      · simp [handleGet_sent]
  · left
    rw [serve_other doc_root env req hm]
    exact ⟨rfl, by simp [badMethod]⟩

/-- An exception leaves `processRequest` only on a GET request whose
`fs::exists` call throws, and it is that exception. -/
theorem serve_thrown_cause (doc_root : String) (env : Env) (req : Request)
    (h : (serve doc_root env req).thrown ≠ none) :
    req.method = Verb.get ∧
    ∃ what, env.fs_exists (doc_root ++ normalizedTarget req.target) = Except.error what ∧
      (serve doc_root env req).thrown = some what := by
  by_cases hm : req.method = Verb.get
  · refine ⟨hm, ?_⟩
    cases he : env.fs_exists (doc_root ++ normalizedTarget req.target) with
    | error what =>
      refine ⟨what, rfl, ?_⟩
      rw [serve_get_throws doc_root env req what hm he]
    | ok found =>
      exfalso
      apply h
      rw [serve_get_answer doc_root env req found hm he, writeResponse_thrown,
        handleGet_thrown_of_answer env (dispatched doc_root req) found (by simpa using he)]
      rfl
  · exfalso
    apply h
    rw [serve_other doc_root env req hm]
    rfl

/-! ## The claims -/

/-- Claim C2: a GET on a path that exists and opens, when nothing is thrown
while it is read, gets status 200, a body that is exactly the bytes of the
file in order (for every file length: the loop over 4096-byte reads and the
append of the final short read put the whole file together), a content-length
equal to the number of bytes of the file, and the content type
`setContentType` gives for the extension of the path. -/
theorem handleGet_serves_file (doc_root : String) (env : Env) (req : Request)
    (bytes : List Char) (hm : req.method = Verb.get)
    (he : env.fs_exists (doc_root ++ normalizedTarget req.target) = Except.ok true)
    (ho : env.ifstream_open (doc_root ++ normalizedTarget req.target) = some bytes)
    (hf : ∀ what : String,
      readLoop env.append_fault bytes env.stack "" 0 ≠ Except.error what) :
    (serve doc_root env req).response_.result = 200 ∧
    (serve doc_root env req).response_.body = String.mk bytes ∧
    (serve doc_root env req).response_.values Field.content_length
      = [toString bytes.length] ∧
    (serve doc_root env req).response_.values Field.content_type
      = [contentTypeOf (extension (doc_root ++ normalizedTarget req.target))] ∧
    (serve doc_root env req).sent = [(serve doc_root env req).response_] := by
  have hr : readLoop env.append_fault bytes env.stack "" 0 = Except.ok (String.mk bytes) := by
    rcases readLoop_cases env.append_fault bytes env.stack "" 0 with h | ⟨what, h⟩
    · rw [h]; simp
    · exact absurd h (hf what)
  have hs := handleGet_ok env (dispatched doc_root req) bytes (String.mk bytes)
    (by simpa using he) (by simpa using ho) hr
  have hserve := serve_get_answer doc_root env req true hm he
  refine ⟨?_, ?_, ?_, ?_, ?_⟩
  · rw [hserve, hs]; simp [setContentType]
  · rw [hserve, hs]; simp [setContentType]
  · rw [hserve, hs]; simp [setContentType, String.length]
  · rw [hserve, hs]; simp [setContentType]
  · rw [hserve]; simp [handleGet_sent]

/-- Witness for C2: `GET /` in the sample environment, where `www/index.html`
holds `hi` and nothing is thrown. -/
theorem handleGet_serves_file_witness :
    (serve "www" sampleEnv (sampleRequest Verb.get "/")).response_.result = 200 ∧
    (serve "www" sampleEnv (sampleRequest Verb.get "/")).response_.body = "hi" ∧
    (serve "www" sampleEnv (sampleRequest Verb.get "/")).response_.values
      Field.content_length = ["2"] ∧
    (serve "www" sampleEnv (sampleRequest Verb.get "/")).response_.values
      Field.content_type = ["text/html"] :=
  have h := handleGet_serves_file "www" sampleEnv (sampleRequest Verb.get "/") ['h', 'i']
    rfl (by decide) (by decide)
    (fun what => by
      show readLoop none ['h', 'i'] sampleEnv.stack "" 0 ≠ Except.error what
      rw [readLoop_no_fault]
      simp)
  ⟨h.1, h.2.1, h.2.2.1, h.2.2.2.1.trans (by decide)⟩

/-! ## A missing path -/

/-- A GET on a path that `fs::exists` reports missing gets status 404, the
single content type `text/plain` and the body `File not found: ` followed by
the target `handleGet` works with and a newline. The raw target, as received,
occurs in that body; when the raw target is not `/` it is the target
printed. -/
theorem handleGet_not_found_response (doc_root : String) (env : Env) (req : Request)
    (hm : req.method = Verb.get)
    (he : env.fs_exists (doc_root ++ normalizedTarget req.target) = Except.ok false) :
    (serve doc_root env req).response_.result = 404 ∧
    (serve doc_root env req).response_.values Field.content_type = ["text/plain"] ∧
    (serve doc_root env req).response_.body
      = "File not found: " ++ normalizedTarget req.target ++ "\n" ∧
    (∃ before after : String,
      (serve doc_root env req).response_.body = before ++ req.target ++ after) ∧
    (req.target ≠ "/" →
      (serve doc_root env req).response_.body = "File not found: " ++ req.target ++ "\n") := by
  have hs := handleGet_not_found env (dispatched doc_root req) (by simpa using he)
  have hserve := serve_get_answer doc_root env req false hm he
  have hb : (serve doc_root env req).response_.body
      = "File not found: " ++ normalizedTarget req.target ++ "\n" := by
    rw [hserve, hs]; simp
  refine ⟨?_, ?_, hb, ?_, ?_⟩
  · rw [hserve, hs]; simp
  · rw [hserve, hs]; simp
  · by_cases ht : req.target = "/"
    · refine ⟨"File not found: ", "index.html\n", ?_⟩
      rw [hb, ht]
      decide
    · refine ⟨"File not found: ", "\n", ?_⟩
      rw [hb]
      simp [normalizedTarget, ht]
  · intro ht
    rw [hb]
    simp [normalizedTarget, ht]

/-- The scenario `GET /missing.txt` in the sample environment: 404,
`text/plain` and the body naming the target. -/
theorem handleGet_not_found_sample :
    (serve "www" sampleEnv (sampleRequest Verb.get "/missing.txt")).response_.result = 404 ∧
    (serve "www" sampleEnv (sampleRequest Verb.get "/missing.txt")).response_.values
      Field.content_type = ["text/plain"] ∧
    (serve "www" sampleEnv (sampleRequest Verb.get "/missing.txt")).response_.body
      = "File not found: /missing.txt\n" :=
  have h := handleGet_not_found_response "www" sampleEnv
    (sampleRequest Verb.get "/missing.txt") rfl (by decide)
  ⟨h.1, h.2.1, h.2.2.2.2 (by decide)⟩

set_option maxRecDepth 100000 in
/-- In the sample environment the file name of the document root followed by
`longTarget` is longer than `nameMax`, the status query on that path fails,
and no stream opens on it. -/
theorem sampleEnv_long_name :
    nameMax < (filename ("www" ++ normalizedTarget longTarget).data).length ∧
    sampleEnv.fs_exists ("www" ++ normalizedTarget longTarget)
      = Except.error "boost::filesystem::status: File name too long" ∧
    sampleEnv.ifstream_open ("www" ++ normalizedTarget longTarget) = none := by
  decide

/-- Claim C3, at the input where the code departs from it: `GET` on the target
`longTarget` in the sample environment. No file of that name exists (none can,
the name is longer than the system allows, and no stream opens on it), yet no
404 is sent: `fs::exists` throws before the `try` block, the exception leaves
`handleGet` and `processRequest`, the status is still the 200 of a fresh
response, no content type is set, the body is empty and nothing is handed to
the write. -/
theorem handleGet_missing_file_throws :
    nameMax < (filename ("www" ++ normalizedTarget longTarget).data).length ∧
    sampleEnv.ifstream_open ("www" ++ normalizedTarget longTarget) = none ∧
    (serve "www" sampleEnv (sampleRequest Verb.get longTarget)).thrown
      = some "boost::filesystem::status: File name too long" ∧
    (serve "www" sampleEnv (sampleRequest Verb.get longTarget)).sent = [] ∧
    (serve "www" sampleEnv (sampleRequest Verb.get longTarget)).response_.result = 200 ∧
    (serve "www" sampleEnv (sampleRequest Verb.get longTarget)).response_.values
      Field.content_type = [] ∧
    (serve "www" sampleEnv (sampleRequest Verb.get longTarget)).response_.body = "" := by
  have hs := serve_get_throws "www" sampleEnv (sampleRequest Verb.get longTarget)
    "boost::filesystem::status: File name too long" rfl sampleEnv_long_name.2.1
  refine ⟨sampleEnv_long_name.1, sampleEnv_long_name.2.2, ?_, ?_, ?_, ?_, ?_⟩
  · rw [hs]
  · rw [hs]; rfl
  · rw [hs]; rfl
  · rw [hs]; rfl
  · rw [hs]; rfl

/-! ## Root and index -/

/-- What `handleGet` leaves in the response, the filesystem log, the send log
and the exception record depends on the request only through the target it
works with. -/
theorem handleGet_congr (env : Env) (s1 s2 : Session)
    (hd : s1.doc_root = s2.doc_root) (hr : s1.response_ = s2.response_)
    (hc : s1.fsCalls = s2.fsCalls) (hsent : s1.sent = s2.sent)
    (hth : s1.thrown = s2.thrown)
    (ht : normalizedTarget s1.request_.target = normalizedTarget s2.request_.target) :
    (handleGet env s1).response_ = (handleGet env s2).response_ ∧
    (handleGet env s1).fsCalls = (handleGet env s2).fsCalls ∧
    (handleGet env s1).sent = (handleGet env s2).sent ∧
    (handleGet env s1).thrown = (handleGet env s2).thrown := by
  rcases handleGet_cases env s1 with ⟨what, h⟩ | h | ⟨h, ho⟩ | ⟨h, bytes, body, ho, hl⟩ |
    ⟨h, bytes, what, ho, hl⟩
  · rw [handleGet_throws env s1 what h,
      handleGet_throws env s2 what (by rw [← hd, ← ht]; exact h)]
    simp [hd, hr, hc, hsent, ht]
  · rw [handleGet_not_found env s1 h, handleGet_not_found env s2 (by rw [← hd, ← ht]; exact h)]
    simp [hd, hr, hc, hsent, ht, hth]
  · rw [handleGet_open_failed env s1 h ho,
      handleGet_open_failed env s2 (by rw [← hd, ← ht]; exact h)
        (by rw [← hd, ← ht]; exact ho)]
    simp [hd, hr, hc, hsent, ht, hth]
  · rw [handleGet_ok env s1 bytes body h ho hl,
      handleGet_ok env s2 bytes body (by rw [← hd, ← ht]; exact h)
        (by rw [← hd, ← ht]; exact ho) hl]
    simp [hd, hr, hc, hsent, ht, hth, setContentType]
  · rw [handleGet_exception env s1 bytes what h ho hl,
      handleGet_exception env s2 bytes what (by rw [← hd, ← ht]; exact h)
        (by rw [← hd, ← ht]; exact ho) hl]
    simp [hd, hr, hc, hsent, ht, hth, setContentType]

/-- The end of `processRequest` keeps two sessions in agreement on response,
filesystem log, send log and exception record. -/
theorem finish_congr (s1 s2 : Session)
    (hr : s1.response_ = s2.response_) (hc : s1.fsCalls = s2.fsCalls)
    (hsent : s1.sent = s2.sent) (hth : s1.thrown = s2.thrown) :
    (finish s1).response_ = (finish s2).response_ ∧
    (finish s1).fsCalls = (finish s2).fsCalls ∧
    (finish s1).sent = (finish s2).sent ∧
    (finish s1).thrown = (finish s2).thrown := by
  cases h1 : s1.thrown with
  | none =>
    rw [finish_of_not_thrown s1 h1, finish_of_not_thrown s2 (by rw [← hth]; exact h1)]
    simp [hr, hc, hsent, hth]
  | some what =>
    rw [finish_of_thrown s1 what h1, finish_of_thrown s2 what (by rw [← hth]; exact h1)]
    exact ⟨hr, hc, hsent, hth⟩

/-- Claim C4: for every document root, environment and request, the GET request
with target `/` and the GET request with target `/index.html`, otherwise the
same, get the same response (status, fields and body, on the 200, 404 and 500
branches alike); the same response is sent, the same filesystem accesses are
made, and the same exception, if any, leaves the handler. -/
theorem handleGet_root_is_index (doc_root : String) (env : Env) (req : Request) :
    (serve doc_root env { req with method := Verb.get, target := "/" }).response_
      = (serve doc_root env { req with method := Verb.get, target := "/index.html" }).response_ ∧
    (serve doc_root env { req with method := Verb.get, target := "/" }).sent
      = (serve doc_root env { req with method := Verb.get, target := "/index.html" }).sent ∧
    (serve doc_root env { req with method := Verb.get, target := "/" }).fsCalls
      = (serve doc_root env { req with method := Verb.get, target := "/index.html" }).fsCalls ∧
    (serve doc_root env { req with method := Verb.get, target := "/" }).thrown
      = (serve doc_root env { req with method := Verb.get, target := "/index.html" }).thrown := by
  have h := handleGet_congr env
    (dispatched doc_root { req with method := Verb.get, target := "/" })
    (dispatched doc_root { req with method := Verb.get, target := "/index.html" })
    rfl rfl rfl rfl rfl (by show normalizedTarget "/" = normalizedTarget "/index.html"; decide)
  have hf := finish_congr _ _ h.1 h.2.1 h.2.2.1 h.2.2.2
  rw [serve_get doc_root env _ rfl, serve_get doc_root env _ rfl]
  exact ⟨hf.1, hf.2.2.1, hf.2.1, hf.2.2.2⟩

/-! ## Keep-alive and content-length -/

/-- The end of `processRequest` touches neither the version nor the Connection
field of the response. -/
theorem finish_version_connection (s : Session) :
    (finish s).response_.version = s.response_.version ∧
    (finish s).response_.connection = s.response_.connection := by
  cases h : s.thrown with
  | none => rw [finish_of_not_thrown s h]; simp
  | some what => rw [finish_of_thrown s what h]; exact ⟨rfl, rfl⟩

/-- The response `processRequest` leaves offers no persistent connection. -/
theorem serve_keep_alive (doc_root : String) (env : Env) (req : Request) :
    (serve doc_root env req).response_.keep_alive = false := by
  have hd : (dispatched doc_root req).response_.keep_alive = false :=
    keep_alive_setKeepAlive_false _
  by_cases hm : req.method = Verb.get
  · rw [serve_get doc_root env req hm]
    have hg := handleGet_version_connection env (dispatched doc_root req)
    have hf := finish_version_connection (handleGet env (dispatched doc_root req))
    simp only [Response.keep_alive, hf.1, hf.2, hg.1, hg.2]
    exact hd
  · rw [serve_other doc_root env req hm]
    simpa [Response.keep_alive, badMethod] using hd

/-- The responses sent in a run whose read yields a request are those sent by
`processRequest`. -/
theorem run_sent (doc_root : String) (env : Env) (req : Request) :
    (Session.run env (Session.mk_ doc_root) (some req)).sent
      = (serve doc_root env req).sent := by
  simp only [Session.run, serve]
  split <;> rfl

/-- Claim C5: every response the server produces has keep-alive false: for every
document root, environment and request (of any method and target, whether or
not the client asked for a persistent connection), the response left by
`processRequest` does not offer persistence, and in every run of a connection
every response sent is such a response. -/
theorem response_never_keep_alive (doc_root : String) (env : Env) :
    (∀ req : Request, (serve doc_root env req).response_.keep_alive = false) ∧
    (∀ outcome : Option Request,
      ((Session.run env (Session.mk_ doc_root) outcome).sent.map Response.keep_alive).all
        (fun b => b = false) = true) := by
  refine ⟨serve_keep_alive doc_root env, ?_⟩
  intro outcome
  cases outcome with
  | none => rfl
  | some req =>
    rw [run_sent]
    rcases serve_sent doc_root env req with ⟨_, hs⟩ | ⟨_, hs⟩
    · rw [hs]
      simp [serve_keep_alive]
    · rw [hs]
      rfl

/-- The response `writeResponse` leaves carries exactly one content-length,
the length of the body, once `processRequest` is through without an
exception. -/
theorem serve_content_length (doc_root : String) (env : Env) (req : Request)
    (h : (serve doc_root env req).thrown = none) :
    (serve doc_root env req).response_.values Field.content_length
      = [toString (serve doc_root env req).response_.body.length] := by
  by_cases hm : req.method = Verb.get
  · rw [serve_get doc_root env req hm] at h ⊢
    cases ht : (handleGet env (dispatched doc_root req)).thrown with
    | none => rw [finish_of_not_thrown _ ht]; simp
    | some what =>
      rw [finish_of_thrown _ what ht] at h
      rw [ht] at h
      cases h
  · rw [serve_other doc_root env req hm]; simp

/-- Claim C6: every response that is written, on every branch (400, 404, both
500 and 200), carries exactly one content-length, equal to the length of its
body. Whenever `processRequest` completes, exactly one response is handed to
the write, the one left in `response_`, with that content-length; the only
other case is a GET request on which `fs::exists` throws, and then nothing is
written. So every response a run of a connection hands to the write has that
content-length. For every session `writeResponse` sets the content-length to
the length of the assembled body and leaves the body as it is. -/
theorem writeResponse_content_length (doc_root : String) (env : Env) (req : Request) :
    (((serve doc_root env req).thrown = none ∧
        (serve doc_root env req).sent = [(serve doc_root env req).response_] ∧
        (serve doc_root env req).response_.values Field.content_length
          = [toString (serve doc_root env req).response_.body.length]) ∨
      (req.method = Verb.get ∧
        (∃ what, env.fs_exists (doc_root ++ normalizedTarget req.target)
            = Except.error what ∧
          (serve doc_root env req).thrown = some what) ∧
        (serve doc_root env req).sent = [])) ∧
    ((Session.run env (Session.mk_ doc_root) (some req)).sent.all
      (fun r => r.values Field.content_length = [toString r.body.length]) = true) ∧
    ((Session.run env (Session.mk_ doc_root) none).sent = []) ∧
    (∀ s : Session, (writeResponse s).response_.values Field.content_length
      = [toString s.response_.body.length] ∧
      (writeResponse s).response_.body = s.response_.body) := by
  refine ⟨?_, ?_, rfl, fun s => ⟨by simp, by simp⟩⟩
  · rcases serve_sent doc_root env req with ⟨ht, hs⟩ | ⟨ht, hs⟩
    · exact Or.inl ⟨ht, hs, serve_content_length doc_root env req ht⟩
    · exact Or.inr ⟨(serve_thrown_cause doc_root env req ht).1,
        (serve_thrown_cause doc_root env req ht).2, hs⟩
  · rw [run_sent]
    rcases serve_sent doc_root env req with ⟨ht, hs⟩ | ⟨_, hs⟩
    · rw [hs]
      simp [serve_content_length doc_root env req ht]
    · rw [hs]
      rfl

/-- Claim C7: the function `setContentType` sets exactly one content-type value, the one the
chain of comparisons gives for the extension of the path. That chain is an
exact lookup in the table: `.html` and `.htm` give `text/html`, `.css` gives
`text/css`, `.js` gives `application/javascript`, `.json` gives
`application/json`, `.png` gives `image/png`, `.jpg` and `.jpeg` give
`image/jpeg`, `.gif` gives `image/gif`, and every extension that is not one of
these nine strings, the empty one and `.HTML` and `.Png` among them, gives
`application/octet-stream`. -/
theorem setContentType_table (path : String) (s : Session) :
    (setContentType path s).response_.values Field.content_type
      = [contentTypeOf (extension path)] ∧
    (∀ ext : String,
      contentTypeOf ext = ((extensionTable.lookup ext).getD "application/octet-stream")) ∧
    (∀ ext : String, ext ∉ extensionTable.map Prod.fst →
      contentTypeOf ext = "application/octet-stream") ∧
    contentTypeOf ".html" = "text/html" ∧ contentTypeOf ".htm" = "text/html" ∧
    contentTypeOf ".css" = "text/css" ∧ contentTypeOf ".js" = "application/javascript" ∧
    contentTypeOf ".json" = "application/json" ∧ contentTypeOf ".png" = "image/png" ∧
    contentTypeOf ".jpg" = "image/jpeg" ∧ contentTypeOf ".jpeg" = "image/jpeg" ∧
    contentTypeOf ".gif" = "image/gif" ∧
    contentTypeOf "" = "application/octet-stream" ∧
    contentTypeOf ".HTML" = "application/octet-stream" ∧
    contentTypeOf ".Png" = "application/octet-stream" := by
  refine ⟨by simp [setContentType], ?_, ?_, by decide, by decide, by decide, by decide,
    by decide, by decide, by decide, by decide, by decide, by decide, by decide, by decide⟩
  · intro ext
    unfold contentTypeOf extensionTable
    by_cases h1 : ext = ".html"
    · subst h1; decide
    by_cases h2 : ext = ".htm"
    · subst h2; decide
    by_cases h3 : ext = ".css"
    · subst h3; decide
    by_cases h4 : ext = ".js"
    · subst h4; decide
    by_cases h5 : ext = ".json"
    · subst h5; decide
    by_cases h6 : ext = ".png"
    · subst h6; decide
    by_cases h7 : ext = ".jpg"
    · subst h7; decide
    by_cases h8 : ext = ".jpeg"
    · subst h8; decide
    by_cases h9 : ext = ".gif"
    · subst h9; decide
    simp [List.lookup, beq_eq_false_iff_ne.mpr h1, beq_eq_false_iff_ne.mpr h2,
      beq_eq_false_iff_ne.mpr h3, beq_eq_false_iff_ne.mpr h4, beq_eq_false_iff_ne.mpr h5,
      beq_eq_false_iff_ne.mpr h6, beq_eq_false_iff_ne.mpr h7, beq_eq_false_iff_ne.mpr h8,
      beq_eq_false_iff_ne.mpr h9, h1, h2, h3, h4, h5, h6, h7, h8, h9]
  · intro ext hne
    simp only [extensionTable, List.map_cons, List.map_nil, List.mem_cons, List.mem_nil_iff,
      or_false, not_or] at hne
    obtain ⟨h1, h2, h3, h4, h5, h6, h7, h8, h9⟩ := hne
    simp [contentTypeOf, h1, h2, h3, h4, h5, h6, h7, h8, h9]

/-- Witness for C7: the extension `.HTML` is none of the nine of the table. -/
theorem setContentType_table_witness :
    ".HTML" ∉ extensionTable.map Prod.fst ∧
    contentTypeOf ".HTML" = "application/octet-stream" :=
  ⟨by decide,
    (setContentType_table "www/a.HTML" (Session.mk_ "www")).2.2.1 ".HTML" (by decide)⟩

/-- Claim C8: for a GET request the filesystem accesses of `handleGet` are one
existence check and, when the path exists, one open, both on the plain
concatenation of the document root with `/index.html` when the raw target is
exactly `/` and with the raw target unchanged otherwise; no other path is
accessed. -/
theorem handleGet_path (doc_root : String) (env : Env) (req : Request)
    (hm : req.method = Verb.get) :
    (serve doc_root env req).fsCalls
      = (if env.fs_exists
            (doc_root ++ (if req.target = "/" then "/index.html" else req.target))
              = Except.ok true
         then [FsCall.fs_exists
                (doc_root ++ (if req.target = "/" then "/index.html" else req.target)),
               FsCall.ifstream_open
                (doc_root ++ (if req.target = "/" then "/index.html" else req.target))]
         else [FsCall.fs_exists
                (doc_root ++ (if req.target = "/" then "/index.html" else req.target))]) ∧
    (∀ c : FsCall, c ∈ (serve doc_root env req).fsCalls →
      c.path = doc_root ++ (if req.target = "/" then "/index.html" else req.target)) := by
  have hcalls : (serve doc_root env req).fsCalls
      = (if env.fs_exists (doc_root ++ normalizedTarget req.target) = Except.ok true
         then [FsCall.fs_exists (doc_root ++ normalizedTarget req.target),
               FsCall.ifstream_open (doc_root ++ normalizedTarget req.target)]
         else [FsCall.fs_exists (doc_root ++ normalizedTarget req.target)]) := by
    rcases handleGet_cases env (dispatched doc_root req) with ⟨what, h⟩ | h | ⟨h, ho⟩ |
      ⟨h, bytes, body, ho, hl⟩ | ⟨h, bytes, what, ho, hl⟩
    · simp only [dispatched_doc_root, dispatched_request] at h
      rw [serve_get_throws doc_root env req what hm h]
      simp [h]
    · have hg := handleGet_not_found env _ h
      simp only [dispatched_doc_root, dispatched_request] at h
      rw [serve_get_answer doc_root env req false hm h, hg]
      simp [h]
    · have hg := handleGet_open_failed env _ h ho
      simp only [dispatched_doc_root, dispatched_request] at h
      rw [serve_get_answer doc_root env req true hm h, hg]
      simp [h]
    · have hg := handleGet_ok env _ bytes body h ho hl
      simp only [dispatched_doc_root, dispatched_request] at h
      rw [serve_get_answer doc_root env req true hm h, hg]
      simp [h, setContentType]
    · have hg := handleGet_exception env _ bytes what h ho hl
      simp only [dispatched_doc_root, dispatched_request] at h
      rw [serve_get_answer doc_root env req true hm h, hg]
      simp [h, setContentType]
  have hn : normalizedTarget req.target
      = (if req.target = "/" then "/index.html" else req.target) := rfl
  rw [hn] at hcalls
  refine ⟨hcalls, ?_⟩
  intro c hc
  rw [hcalls] at hc
  by_cases he : env.fs_exists
      (doc_root ++ (if req.target = "/" then "/index.html" else req.target)) = Except.ok true
  · rw [if_pos he] at hc
    simp only [List.mem_cons, List.mem_nil_iff, or_false] at hc
    rcases hc with hc | hc <;> subst hc <;> rfl
  · rw [if_neg he] at hc
    simp only [List.mem_cons, List.mem_nil_iff, or_false] at hc
    subst hc
    rfl

/-- Witness for C8: the targets `/../secret`, `/?x` and `//` are looked up as
they are, nothing removed, decoded or rewritten. -/
theorem handleGet_path_witness :
    (serve "www" sampleEnv (sampleRequest Verb.get "/../secret")).fsCalls
      = [FsCall.fs_exists "www/../secret"] ∧
    (serve "www" sampleEnv (sampleRequest Verb.get "/?x")).fsCalls
      = [FsCall.fs_exists "www/?x"] ∧
    (serve "www" sampleEnv (sampleRequest Verb.get "//")).fsCalls
      = [FsCall.fs_exists "www//"] ∧
    (serve "www" sampleEnv (sampleRequest Verb.get "/")).fsCalls
      = [FsCall.fs_exists "www/index.html", FsCall.ifstream_open "www/index.html"] :=
  ⟨(handleGet_path "www" sampleEnv (sampleRequest Verb.get "/../secret") rfl).1.trans
      (by decide),
   (handleGet_path "www" sampleEnv (sampleRequest Verb.get "/?x") rfl).1.trans (by decide),
   (handleGet_path "www" sampleEnv (sampleRequest Verb.get "//") rfl).1.trans (by decide),
   (handleGet_path "www" sampleEnv (sampleRequest Verb.get "/") rfl).1.trans (by decide)⟩

/-! ## The two 500 branches -/

/-- A GET on a path that exists and does not open gets status 500, the single
content type `text/plain` and the body `Error opening file: ` followed by the
target `handleGet` works with and a newline. -/
theorem handleGet_open_failure_response (doc_root : String) (env : Env) (req : Request)
    (hm : req.method = Verb.get)
    (he : env.fs_exists (doc_root ++ normalizedTarget req.target) = Except.ok true)
    (ho : env.ifstream_open (doc_root ++ normalizedTarget req.target) = none) :
    (serve doc_root env req).response_.result = 500 ∧
    (serve doc_root env req).response_.values Field.content_type = ["text/plain"] ∧
    (serve doc_root env req).response_.body
      = "Error opening file: " ++ normalizedTarget req.target ++ "\n" := by
  have hs := handleGet_open_failed env (dispatched doc_root req) (by simpa using he)
    (by simpa using ho)
  have hserve := serve_get_answer doc_root env req true hm he
  refine ⟨?_, ?_, ?_⟩
  · rw [hserve, hs]; simp
  · rw [hserve, hs]; simp
  · rw [hserve, hs]; simp

/-- A GET whose read throws gets status 500, the single content type
`text/plain` (the type set from the extension is replaced) and the body
`Exception: ` followed by the `what()` of the exception and a newline. -/
theorem handleGet_exception_response (doc_root : String) (env : Env) (req : Request)
    (bytes : List Char) (what : String) (hm : req.method = Verb.get)
    (he : env.fs_exists (doc_root ++ normalizedTarget req.target) = Except.ok true)
    (ho : env.ifstream_open (doc_root ++ normalizedTarget req.target) = some bytes)
    (hf : readLoop env.append_fault bytes env.stack "" 0 = Except.error what) :
    (serve doc_root env req).response_.result = 500 ∧
    (serve doc_root env req).response_.values Field.content_type = ["text/plain"] ∧
    (serve doc_root env req).response_.body = "Exception: " ++ what ++ "\n" := by
  have hs := handleGet_exception env (dispatched doc_root req) bytes what
    (by simpa using he) (by simpa using ho) hf
  have hserve := serve_get_answer doc_root env req true hm he
  refine ⟨?_, ?_, ?_⟩
  · rw [hserve, hs]; simp [setContentType]
  · rw [hserve, hs]; simp [setContentType]
  · rw [hserve, hs]; simp [setContentType]

/-- The `catch` branch is taken in the sample environment once the first
append is set to throw: `GET /` then gets 500 and the exception text. -/
theorem handleGet_exception_sample :
    (serve "www" { sampleEnv with append_fault := some (0, "std::bad_alloc") }
      (sampleRequest Verb.get "/")).response_.result = 500 ∧
    (serve "www" { sampleEnv with append_fault := some (0, "std::bad_alloc") }
      (sampleRequest Verb.get "/")).response_.body = "Exception: std::bad_alloc\n" :=
  have h := handleGet_exception_response "www"
    { sampleEnv with append_fault := some (0, "std::bad_alloc") }
    (sampleRequest Verb.get "/") ['h', 'i'] "std::bad_alloc" rfl (by decide) (by decide)
    (readLoop_first_fault _ _ _ _)
  ⟨h.1, h.2.2⟩

/-- The open-failure branch is taken in the sample environment by
`GET /locked`. -/
theorem handleGet_open_failure_sample :
    (serve "www" sampleEnv (sampleRequest Verb.get "/locked")).response_.result = 500 ∧
    (serve "www" sampleEnv (sampleRequest Verb.get "/locked")).response_.body
      = "Error opening file: /locked\n" :=
  have h := handleGet_open_failure_response "www" sampleEnv
    (sampleRequest Verb.get "/locked") rfl (by decide) (by decide)
  ⟨h.1, h.2.2⟩

/-! ## The connection as a whole -/

/-- After `processRequest` has completed, the session has been through
Reading, Processing and Writing, `processRequest` ran once and the write
handler is pending. -/
theorem serve_frame (doc_root : String) (env : Env) (req : Request)
    (h : (serve doc_root env req).thrown = none) :
    (serve doc_root env req).states
      = [ConnState.Reading, ConnState.Processing, ConnState.Writing] ∧
    (serve doc_root env req).processed = 1 ∧
    (serve doc_root env req).pending = Pending.write := by
  by_cases hm : req.method = Verb.get
  · rw [serve_get doc_root env req hm] at h ⊢
    have hg := handleGet_frame env (dispatched doc_root req)
    cases ht : (handleGet env (dispatched doc_root req)).thrown with
    | none =>
      rw [finish_of_not_thrown _ ht]
      refine ⟨?_, ?_, rfl⟩
      · rw [writeResponse_states, hg.1]; rfl
      · show (handleGet env (dispatched doc_root req)).processed = 1
        rw [hg.2.1]; rfl
    | some what =>
      rw [finish_of_thrown _ what ht] at h
      rw [ht] at h
      cases h
  · rw [serve_other doc_root env req hm]
    exact ⟨rfl, rfl, rfl⟩

/-- After `processRequest` was left by an exception, the session has been
through Reading and Processing only, and no handler is pending. -/
theorem serve_frame_thrown (doc_root : String) (env : Env) (req : Request)
    (h : (serve doc_root env req).thrown ≠ none) :
    (serve doc_root env req).states = [ConnState.Reading, ConnState.Processing] ∧
    (serve doc_root env req).processed = 1 ∧
    (serve doc_root env req).pending = Pending.nothing := by
  by_cases hm : req.method = Verb.get
  · rw [serve_get doc_root env req hm] at h ⊢
    have hg := handleGet_frame env (dispatched doc_root req)
    cases ht : (handleGet env (dispatched doc_root req)).thrown with
    | none =>
      rw [finish_of_not_thrown _ ht, writeResponse_thrown] at h
      exact absurd ht h
    | some what =>
      rw [finish_of_thrown _ what ht]
      exact ⟨hg.1, hg.2.1, hg.2.2⟩
  · rw [serve_other doc_root env req hm] at h
    exact absurd rfl h

/-- A run whose read yields a request that `processRequest` completes is
`processRequest` followed by the write handler. -/
theorem run_some (doc_root : String) (env : Env) (req : Request)
    (h : (serve doc_root env req).thrown = none) :
    Session.run env (Session.mk_ doc_root) (some req)
      = onWrite (serve doc_root env req) env.write_failed := by
  have hp := (serve_frame doc_root env req h).2.2
  have hrun : Session.run env (Session.mk_ doc_root) (some req)
      = (if (serve doc_root env req).pending = Pending.write
         then onWrite (serve doc_root env req) env.write_failed
         else serve doc_root env req) := rfl
  rw [hrun, if_pos hp]

/-- A run whose read yields a request on which `processRequest` is left by an
exception ends there. -/
theorem run_thrown (doc_root : String) (env : Env) (req : Request)
    (h : (serve doc_root env req).thrown ≠ none) :
    Session.run env (Session.mk_ doc_root) (some req) = serve doc_root env req := by
  have hp := (serve_frame_thrown doc_root env req h).2.2
  have hrun : Session.run env (Session.mk_ doc_root) (some req)
      = (if (serve doc_root env req).pending = Pending.write
         then onWrite (serve doc_root env req) env.write_failed
         else serve doc_root env req) := rfl
  rw [hrun, if_neg (by rw [hp]; decide)]

/-- The traces of a connection. When the read fails the trace is Reading,
Closed: `processRequest` is not entered, nothing is sent and no filesystem
access is made. When the read yields a request and no exception leaves
`processRequest` (the method is not GET, or `fs::exists` returns an answer)
the trace is Reading, Processing, Writing, Closed, `processRequest` runs once
and exactly one response is sent, whatever the outcome of the write. In both
cases the states are entered in strictly increasing order and no handler is
left pending. -/
theorem session_trace_completed (doc_root : String) (env : Env) :
    (∀ req : Request,
      (req.method ≠ Verb.get ∨
        ∃ found, env.fs_exists (doc_root ++ normalizedTarget req.target) = Except.ok found) →
      (Session.run env (Session.mk_ doc_root) (some req)).states
        = [ConnState.Reading, ConnState.Processing, ConnState.Writing, ConnState.Closed] ∧
      (Session.run env (Session.mk_ doc_root) (some req)).sent
        = [(serve doc_root env req).response_] ∧
      (Session.run env (Session.mk_ doc_root) (some req)).processed = 1 ∧
      (Session.run env (Session.mk_ doc_root) (some req)).pending = Pending.nothing) ∧
    ((Session.run env (Session.mk_ doc_root) none).states
        = [ConnState.Reading, ConnState.Closed] ∧
      (Session.run env (Session.mk_ doc_root) none).sent = [] ∧
      (Session.run env (Session.mk_ doc_root) none).processed = 0 ∧
      (Session.run env (Session.mk_ doc_root) none).fsCalls = [] ∧
      (Session.run env (Session.mk_ doc_root) none).pending = Pending.nothing) := by
  refine ⟨?_, ⟨rfl, rfl, rfl, rfl, rfl⟩⟩
  intro req hreq
  have hth : (serve doc_root env req).thrown = none := by
    rcases hreq with hm | ⟨found, hf⟩
    · rw [serve_other doc_root env req hm]; rfl
    · by_cases hm : req.method = Verb.get
      · rw [serve_get_answer doc_root env req found hm hf, writeResponse_thrown,
          handleGet_thrown_of_answer env (dispatched doc_root req) found (by simpa using hf)]
        rfl
      · rw [serve_other doc_root env req hm]; rfl
  have hsent : (serve doc_root env req).sent = [(serve doc_root env req).response_] := by
    rcases serve_sent doc_root env req with ⟨_, hs⟩ | ⟨ht, _⟩
    · exact hs
    · exact absurd hth ht
  rw [run_some doc_root env req hth]
  refine ⟨?_, hsent, (serve_frame doc_root env req hth).2.1, rfl⟩
  show (serve doc_root env req).states ++ [ConnState.Closed] = _
  rw [(serve_frame doc_root env req hth).1]
  rfl

/-- A third trace, for every environment: when the read yields a GET request
and `fs::exists` throws on its path, the connection enters Reading and
Processing and nothing else; no response is sent and the exception leaves the
read handler. -/
theorem session_trace_thrown (doc_root : String) (env : Env) (req : Request)
    (what : String) (hm : req.method = Verb.get)
    (h : env.fs_exists (doc_root ++ normalizedTarget req.target) = Except.error what) :
    (Session.run env (Session.mk_ doc_root) (some req)).states
      = [ConnState.Reading, ConnState.Processing] ∧
    (Session.run env (Session.mk_ doc_root) (some req)).sent = [] ∧
    (Session.run env (Session.mk_ doc_root) (some req)).processed = 1 ∧
    (Session.run env (Session.mk_ doc_root) (some req)).pending = Pending.nothing ∧
    (Session.run env (Session.mk_ doc_root) (some req)).thrown = some what := by
  have hs := serve_get_throws doc_root env req what hm h
  have hth : (serve doc_root env req).thrown ≠ none := by rw [hs]; simp
  rw [run_thrown doc_root env req hth, hs]
  exact ⟨rfl, rfl, rfl, rfl, rfl⟩

/-- Claim C9, at the input where the code departs from it: the read yields the
well-formed request `GET` on `longTarget` in the sample environment. The
connection enters Reading and Processing and then neither Writing nor Closed:
`fs::exists` throws before the `try` block, the exception leaves `handleGet`,
`processRequest` and the read handler, `writeResponse` is not called and no
response is sent. The trace is neither of the two the claim allows. -/
theorem session_trace_throws :
    (Session.run sampleEnv (Session.mk_ "www")
        (some (sampleRequest Verb.get longTarget))).states
      = [ConnState.Reading, ConnState.Processing] ∧
    (Session.run sampleEnv (Session.mk_ "www")
        (some (sampleRequest Verb.get longTarget))).sent = [] ∧
    (Session.run sampleEnv (Session.mk_ "www")
        (some (sampleRequest Verb.get longTarget))).processed = 1 ∧
    (Session.run sampleEnv (Session.mk_ "www")
        (some (sampleRequest Verb.get longTarget))).thrown
      = some "boost::filesystem::status: File name too long" ∧
    (Session.run sampleEnv (Session.mk_ "www")
        (some (sampleRequest Verb.get longTarget))).states
      ≠ [ConnState.Reading, ConnState.Processing, ConnState.Writing, ConnState.Closed] ∧
    (Session.run sampleEnv (Session.mk_ "www")
        (some (sampleRequest Verb.get longTarget))).states
      ≠ [ConnState.Reading, ConnState.Closed] := by
  have h := session_trace_thrown "www" sampleEnv (sampleRequest Verb.get longTarget)
    "boost::filesystem::status: File name too long" rfl sampleEnv_long_name.2.1
  refine ⟨h.1, h.2.1, h.2.2.1, h.2.2.2.2, ?_, ?_⟩
  · rw [h.1]; decide
  · rw [h.1]; decide

/-! ## The listener -/

/-- The accept loop from any listener state: the events of each round are
appended in order, and after the last outcome the accept is armed again. -/
theorem acceptConnection_from (outcomes : List Bool) :
    ∀ srv : Server,
      (acceptConnection srv outcomes).events
        = srv.events ++ (outcomes.map (acceptRound srv.doc_root)).flatten
            ++ [ListenerEvent.accept_armed] ∧
      (acceptConnection srv outcomes).doc_root = srv.doc_root := by
  induction outcomes with
  | nil => intro srv; simp [acceptConnection]
  | cons failed outcomes ih =>
    intro srv
    have hroot : (onAccept { srv with events := srv.events ++ [ListenerEvent.accept_armed] }
        failed).doc_root = srv.doc_root := by
      cases failed <;> rfl
    have hev : (onAccept { srv with events := srv.events ++ [ListenerEvent.accept_armed] }
        failed).events = srv.events ++ acceptRound srv.doc_root failed := by
      cases failed <;> simp [onAccept, acceptRound]
    simp only [acceptConnection]
    rw [(ih _).1, (ih _).2, hroot, hev]
    simp [List.append_assoc]

/-- The arming events of the rounds: one for each outcome. -/
theorem count_armed_rounds (doc_root : String) (outcomes : List Bool) :
    ((outcomes.map (acceptRound doc_root)).flatten).count ListenerEvent.accept_armed
      = outcomes.length := by
  induction outcomes with
  | nil => rfl
  | cons failed outcomes ih =>
    cases failed <;>
      simp [acceptRound, List.count_cons, ih]

/-- The session events of the rounds: one for each successful accept. -/
theorem sessions_of_rounds (doc_root : String) (outcomes : List Bool) :
    ((outcomes.map (acceptRound doc_root)).flatten).filter
        (fun e => e ≠ ListenerEvent.accept_armed)
      = List.replicate (outcomes.count false)
          (ListenerEvent.session_started (Session.mk_ doc_root).start) := by
  induction outcomes with
  | nil => rfl
  | cons failed outcomes ih =>
    rw [List.map_cons, List.flatten_cons, List.filter_append, ih]
    cases failed
    · simp [acceptRound, List.replicate_succ]
    · simp [acceptRound]

/-- Claim C10: for every sequence of accept outcomes the listener arms the accept
once before each outcome and once more after the last, success or failure, so
the loop goes on after a failed accept; between two armings it starts a session
when the accept succeeded and does nothing when it failed, so the sessions
started are one for each successful accept, each started before the next
arming. A started session has only armed its read: it is in Reading with the
read handler pending and has neither processed nor sent anything when the
listener arms the next accept. -/
theorem acceptConnection_events (doc_root : String) (outcomes : List Bool) :
    (Server.mk_ doc_root outcomes).events
      = (outcomes.map (acceptRound doc_root)).flatten ++ [ListenerEvent.accept_armed] ∧
    acceptRound doc_root true = [ListenerEvent.accept_armed] ∧
    acceptRound doc_root false
      = [ListenerEvent.accept_armed,
         ListenerEvent.session_started (Session.mk_ doc_root).start] ∧
    (Server.mk_ doc_root outcomes).events.count ListenerEvent.accept_armed
      = outcomes.length + 1 ∧
    (Server.mk_ doc_root outcomes).events.getLast? = some ListenerEvent.accept_armed ∧
    (Server.mk_ doc_root outcomes).events.filter (fun e => e ≠ ListenerEvent.accept_armed)
      = List.replicate (outcomes.count false)
          (ListenerEvent.session_started (Session.mk_ doc_root).start) ∧
    (Session.mk_ doc_root).start.states = [ConnState.Reading] ∧
    (Session.mk_ doc_root).start.pending = Pending.read ∧
    (Session.mk_ doc_root).start.processed = 0 ∧
    (Session.mk_ doc_root).start.sent = [] := by
  have hev : (Server.mk_ doc_root outcomes).events
      = (outcomes.map (acceptRound doc_root)).flatten ++ [ListenerEvent.accept_armed] := by
    simp only [Server.mk_]
    rw [(acceptConnection_from outcomes _).1]
    simp
  refine ⟨hev, rfl, rfl, ?_, ?_, ?_, rfl, rfl, rfl, rfl⟩
  · rw [hev, List.count_append, count_armed_rounds]
    simp
  · rw [hev]
    simp
  · rw [hev, List.filter_append, sessions_of_rounds]
    simp

end HttpServer
